import Mathlib

/-
Verification of the mms simulator's transformation-matrix builder
(src/sim/TransformationMatrix.cpp) and maze mutation interface
(src/sim/MazeInterface.cpp).

The C++ code computes with doubles and stores matrix entries as floats; the
embedding idealizes all of that arithmetic over the rationals, so every
numeric identity below is exact rather than up to floating-point tolerance.
A C++ `QVector<float>` matrix becomes a `List ℚ`; the fatal ASSERT_EQ on
operand sizes in multiply4x4Matrices is modelled by returning `Option`:
`none` is the assertion firing.
-/

namespace Mms

namespace TransformationMatrix

/-- Embeds TransformationMatrix::mapPixelCoordinateToOpenGlCoordinate
(TransformationMatrix.cpp, lines 232-239): per axis,
`ndc = 2 * pixel / windowSize - 1`. -/
def mapPixelCoordinateToOpenGlCoordinate
    (coordinate : ℚ × ℚ) (windowSize : ℤ × ℤ) : ℚ × ℚ :=
  (2 * coordinate.1 / (windowSize.1 : ℚ) - 1,
   2 * coordinate.2 / (windowSize.2 : ℚ) - 1)

/-- The innermost loop of TransformationMatrix::multiply4x4Matrices
(lines 249-252): `value` starts at 0 and accumulates
`left[4*i+k] * right[4*k+j]` for k = 0..3. -/
def mul4Entry (left right : List ℚ) (i j : ℕ) : ℚ :=
  (List.range 4).foldl
    (fun value k => value + left.getD (4 * i + k) 0 * right.getD (4 * k + j) 0) 0

/-- The two outer loops of multiply4x4Matrices (lines 247-255), unrolled:
`result` collects the sixteen entries in push_back order, i.e. row-major
(i = 0..3 outer, j = 0..3 inner). -/
def multiply4x4Core (left right : List ℚ) : List ℚ :=
  [mul4Entry left right 0 0, mul4Entry left right 0 1,
   mul4Entry left right 0 2, mul4Entry left right 0 3,
   mul4Entry left right 1 0, mul4Entry left right 1 1,
   mul4Entry left right 1 2, mul4Entry left right 1 3,
   mul4Entry left right 2 0, mul4Entry left right 2 1,
   mul4Entry left right 2 2, mul4Entry left right 2 3,
   mul4Entry left right 3 0, mul4Entry left right 3 1,
   mul4Entry left right 3 2, mul4Entry left right 3 3]

/-- Embeds TransformationMatrix::multiply4x4Matrices (lines 241-258).
`ASSERT_EQ(left.size(), 16)` and `ASSERT_EQ(right.size(), 16)` are fatal
assertions; the embedding returns `none` when either fires and otherwise
`some` of the loop result. (The trailing `ASSERT_EQ(result.size(), 16)`
never fires; see the length lemma below.) -/
def multiply4x4Matrices (left right : List ℚ) : Option (List ℚ) :=
  if left.length = 16 ∧ right.length = 16 then
    some (multiply4x4Core left right)
  else
    none

/-- Embeds TransformationMatrix::getFullMapTransformationMatrix
(lines 12-98), with each local mirroring the C++ local of the same name. -/
def getFullMapTransformationMatrix
    (wallWidth : ℚ)
    (physicalMazeSize : ℚ × ℚ)
    (fullMapPosition fullMapSize windowSize : ℤ × ℤ) : Option (List ℚ) :=
  let initialTranslationMatrix : List ℚ :=
    [1, 0, 0, 0.5 * wallWidth,
     0, 1, 0, 0.5 * wallWidth,
     0, 0, 1, 0,
     0, 0, 0, 1]
  let physicalWidth := physicalMazeSize.1
  let physicalHeight := physicalMazeSize.2
  let pixelsPerMeter :=
    min ((fullMapSize.1 : ℚ) / physicalWidth) ((fullMapSize.2 : ℚ) / physicalHeight)
  let pixelWidth := pixelsPerMeter * physicalWidth
  let pixelHeight := pixelsPerMeter * physicalHeight
  let openGlOrigin := mapPixelCoordinateToOpenGlCoordinate (0, 0) windowSize
  let openGlMazeSize :=
    mapPixelCoordinateToOpenGlCoordinate (pixelWidth, pixelHeight) windowSize
  let openGlWidth := openGlMazeSize.1 - openGlOrigin.1
  let openGlHeight := openGlMazeSize.2 - openGlOrigin.2
  let horizontalScaling := openGlWidth / physicalWidth
  let verticalScaling := openGlHeight / physicalHeight
  let scalingMatrix : List ℚ :=
    [horizontalScaling, 0, 0, 0,
     0, verticalScaling, 0, 0,
     0, 0, 1, 0,
     0, 0, 0, 1]
  let pixelLowerLeftCornerX :=
    (fullMapPosition.1 : ℚ) + 0.5 * ((fullMapSize.1 : ℚ) - pixelWidth)
  let pixelLowerLeftCornerY :=
    (fullMapPosition.2 : ℚ) + 0.5 * ((fullMapSize.2 : ℚ) - pixelHeight)
  let openGlLowerLeftCorner :=
    mapPixelCoordinateToOpenGlCoordinate
      (pixelLowerLeftCornerX, pixelLowerLeftCornerY) windowSize
  let translationMatrix : List ℚ :=
    [1, 0, 0, openGlLowerLeftCorner.1,
     0, 1, 0, openGlLowerLeftCorner.2,
     0, 0, 1, 0,
     0, 0, 0, 1]
  (multiply4x4Matrices scalingMatrix initialTranslationMatrix).bind
    (fun m => multiply4x4Matrices translationMatrix m)

/-- Embeds TransformationMatrix::getZoomedMapTransformationMatrix
(lines 100-230), locals named as in the C++. The source computes
`theta = (Degrees(currentMouseRotation) - Degrees(90)).getRadiansZeroTo2pi()`
(line 186) and feeds `std::cos(theta)` / `std::sin(theta)` into the rotation
matrix; since cosine and sine are transcendental, the embedding takes those
two values as the explicit parameters `cosTheta` and `sinTheta` (the angle
itself is modelled by `zoomedMapThetaDegrees` below). The mouse-translation
`Coordinate`s are pairs of meters, and `Cartesian` subtraction (line 163) is
componentwise. -/
def getZoomedMapTransformationMatrix
    (physicalMazeSize : ℚ × ℚ)
    (zoomedMapPosition zoomedMapSize windowSize : ℤ × ℤ)
    (screenPixelsPerMeter zoomedMapScale : ℚ)
    (rotateZoomedMap : Bool)
    (initialMouseTranslation currentMouseTranslation : ℚ × ℚ)
    (cosTheta sinTheta : ℚ) : Option (List ℚ) :=
  let physicalWidth := physicalMazeSize.1
  let physicalHeight := physicalMazeSize.2
  let pixelsPerMeter := screenPixelsPerMeter * zoomedMapScale
  let pixelWidth := pixelsPerMeter * physicalWidth
  let pixelHeight := pixelsPerMeter * physicalHeight
  let openGlOrigin := mapPixelCoordinateToOpenGlCoordinate (0, 0) windowSize
  let openGlMazeSize :=
    mapPixelCoordinateToOpenGlCoordinate (pixelWidth, pixelHeight) windowSize
  let openGlWidth := openGlMazeSize.1 - openGlOrigin.1
  let openGlHeight := openGlMazeSize.2 - openGlOrigin.2
  let horizontalScaling := openGlWidth / physicalWidth
  let verticalScaling := openGlHeight / physicalHeight
  let scalingMatrix : List ℚ :=
    [horizontalScaling, 0, 0, 0,
     0, verticalScaling, 0, 0,
     0, 0, 1, 0,
     0, 0, 0, 1]
  let centerXPixels := initialMouseTranslation.1 * pixelsPerMeter
  let centerYPixels := initialMouseTranslation.2 * pixelsPerMeter
  let zoomedMapCenterXPixels := (zoomedMapPosition.1 : ℚ) + 0.5 * (zoomedMapSize.1 : ℚ)
  let zoomedMapCenterYPixels := (zoomedMapPosition.2 : ℚ) + 0.5 * (zoomedMapSize.2 : ℚ)
  let staticTranslationXPixels := zoomedMapCenterXPixels - centerXPixels
  let staticTranslationYPixels := zoomedMapCenterYPixels - centerYPixels
  let staticTranslation :=
    mapPixelCoordinateToOpenGlCoordinate
      (staticTranslationXPixels, staticTranslationYPixels) windowSize
  let mouseTranslationDelta :=
    (currentMouseTranslation.1 - initialMouseTranslation.1,
     currentMouseTranslation.2 - initialMouseTranslation.2)
  let dynamicTranslationXPixels := mouseTranslationDelta.1 * pixelsPerMeter
  let dynamicTranslationYPixels := mouseTranslationDelta.2 * pixelsPerMeter
  let dynamicTranslation :=
    mapPixelCoordinateToOpenGlCoordinate
      (dynamicTranslationXPixels, dynamicTranslationYPixels) windowSize
  let horizontalTranslation :=
    staticTranslation.1 - dynamicTranslation.1 + openGlOrigin.1
  let verticalTranslation :=
    staticTranslation.2 - dynamicTranslation.2 + openGlOrigin.2
  let translationMatrix : List ℚ :=
    [1, 0, 0, horizontalTranslation,
     0, 1, 0, verticalTranslation,
     0, 0, 1, 0,
     0, 0, 0, 1]
  let rotationMatrix : List ℚ :=
    [cosTheta, sinTheta, 0, 0,
     -sinTheta, cosTheta, 0, 0,
     0, 0, 1, 0,
     0, 0, 0, 1]
  let inverseScalingMatrix : List ℚ :=
    [1 / horizontalScaling, 0, 0, 0,
     0, 1 / verticalScaling, 0, 0,
     0, 0, 1, 0,
     0, 0, 0, 1]
  let zoomedMapCenterOpenGl :=
    mapPixelCoordinateToOpenGlCoordinate
      (zoomedMapCenterXPixels, zoomedMapCenterYPixels) windowSize
  let translateToOriginMatrix : List ℚ :=
    [1, 0, 0, zoomedMapCenterOpenGl.1,
     0, 1, 0, zoomedMapCenterOpenGl.2,
     0, 0, 1, 0,
     0, 0, 0, 1]
  let inverseTranslateToOriginMatrix : List ℚ :=
    [1, 0, 0, -zoomedMapCenterOpenGl.1,
     0, 1, 0, -zoomedMapCenterOpenGl.2,
     0, 0, 1, 0,
     0, 0, 0, 1]
  do
    let zoomedMapCameraMatrix ← multiply4x4Matrices translationMatrix scalingMatrix
    if rotateZoomedMap then
      let m1 ← multiply4x4Matrices inverseTranslateToOriginMatrix zoomedMapCameraMatrix
      let m2 ← multiply4x4Matrices inverseScalingMatrix m1
      let m3 ← multiply4x4Matrices rotationMatrix m2
      let m4 ← multiply4x4Matrices scalingMatrix m3
      multiply4x4Matrices translateToOriginMatrix m4
    else
      pure zoomedMapCameraMatrix

/-- Modelled from the spec: the Angle/Degrees value type is not among the
source files; §4.2 step 6 specifies `theta = normalize_0_to_2pi(heading - 90°)`
for the zoomed map. The angle is tracked in degrees, normalized to
[0°, 360°). -/
def zoomedMapThetaDegrees (currentMouseRotation : ℚ) : ℚ :=
  let d := currentMouseRotation - 90
  d - 360 * (⌊d / 360⌋ : ℤ)

/-- Modelled from the spec: the renderer (out of scope, §6) applies a
Matrix4x4 to a vertex "via standard row-major multiply" on the homogeneous
2-D point (x, y, 0, 1); this returns the x and y of the image. -/
def applyMatrixToPoint (m : List ℚ) (p : ℚ × ℚ) : ℚ × ℚ :=
  (m.getD 0 0 * p.1 + m.getD 1 0 * p.2 + m.getD 2 0 * 0 + m.getD 3 0,
   m.getD 4 0 * p.1 + m.getD 5 0 * p.2 + m.getD 6 0 * 0 + m.getD 7 0)

/-- A translation matrix by (dx, dy), the shape the builders inline. -/
def translationMatrixQ (dx dy : ℚ) : List ℚ :=
  [1, 0, 0, dx,
   0, 1, 0, dy,
   0, 0, 1, 0,
   0, 0, 0, 1]

/-- A scaling matrix by (sx, sy), the shape the builders inline. -/
def scalingMatrixQ (sx sy : ℚ) : List ℚ :=
  [sx, 0, 0, 0,
   0, sy, 0, 0,
   0, 0, 1, 0,
   0, 0, 0, 1]

/-- The rotation matrix shape of lines 187-192, as a function of the
cosine and sine values fed into it. -/
def rotationMatrixQ (c s : ℚ) : List ℚ :=
  [c, s, 0, 0,
   -s, c, 0, 0,
   0, 0, 1, 0,
   0, 0, 0, 1]

/-- The 4×4 identity matrix. -/
def identity4 : List ℚ :=
  [1, 0, 0, 0,
   0, 1, 0, 0,
   0, 0, 1, 0,
   0, 0, 0, 1]

theorem multiply4x4Core_length (left right : List ℚ) :
    (multiply4x4Core left right).length = 16 := rfl

theorem multiply4x4Matrices_eq_some (left right : List ℚ)
    (hl : left.length = 16) (hr : right.length = 16) :
    multiply4x4Matrices left right = some (multiply4x4Core left right) := by
  simp [multiply4x4Matrices, hl, hr]

/-- On explicitly listed operands the size assertions pass definitionally. -/
theorem multiply4x4Matrices_explicit
    (a0 a1 a2 a3 a4 a5 a6 a7 a8 a9 a10 a11 a12 a13 a14 a15
     b0 b1 b2 b3 b4 b5 b6 b7 b8 b9 b10 b11 b12 b13 b14 b15 : ℚ) :
    multiply4x4Matrices
      [a0, a1, a2, a3, a4, a5, a6, a7, a8, a9, a10, a11, a12, a13, a14, a15]
      [b0, b1, b2, b3, b4, b5, b6, b7, b8, b9, b10, b11, b12, b13, b14, b15] =
    some (multiply4x4Core
      [a0, a1, a2, a3, a4, a5, a6, a7, a8, a9, a10, a11, a12, a13, a14, a15]
      [b0, b1, b2, b3, b4, b5, b6, b7, b8, b9, b10, b11, b12, b13, b14, b15]) := rfl

theorem applyMatrixToPoint_explicit
    (m0 m1 m2 m3 m4 m5 m6 m7 m8 m9 m10 m11 m12 m13 m14 m15 x y : ℚ) :
    applyMatrixToPoint [m0, m1, m2, m3, m4, m5, m6, m7, m8, m9, m10, m11, m12, m13, m14, m15]
      (x, y) =
    (m0 * x + m1 * y + m2 * 0 + m3, m4 * x + m5 * y + m6 * 0 + m7) := rfl

/-- The product of two explicitly listed 4×4 matrices, entry by entry. -/
theorem multiply4x4Core_explicit
    (a0 a1 a2 a3 a4 a5 a6 a7 a8 a9 a10 a11 a12 a13 a14 a15
     b0 b1 b2 b3 b4 b5 b6 b7 b8 b9 b10 b11 b12 b13 b14 b15 : ℚ) :
    multiply4x4Core
      [a0, a1, a2, a3, a4, a5, a6, a7, a8, a9, a10, a11, a12, a13, a14, a15]
      [b0, b1, b2, b3, b4, b5, b6, b7, b8, b9, b10, b11, b12, b13, b14, b15] =
    [0 + a0 * b0 + a1 * b4 + a2 * b8 + a3 * b12,
     0 + a0 * b1 + a1 * b5 + a2 * b9 + a3 * b13,
     0 + a0 * b2 + a1 * b6 + a2 * b10 + a3 * b14,
     0 + a0 * b3 + a1 * b7 + a2 * b11 + a3 * b15,
     0 + a4 * b0 + a5 * b4 + a6 * b8 + a7 * b12,
     0 + a4 * b1 + a5 * b5 + a6 * b9 + a7 * b13,
     0 + a4 * b2 + a5 * b6 + a6 * b10 + a7 * b14,
     0 + a4 * b3 + a5 * b7 + a6 * b11 + a7 * b15,
     0 + a8 * b0 + a9 * b4 + a10 * b8 + a11 * b12,
     0 + a8 * b1 + a9 * b5 + a10 * b9 + a11 * b13,
     0 + a8 * b2 + a9 * b6 + a10 * b10 + a11 * b14,
     0 + a8 * b3 + a9 * b7 + a10 * b11 + a11 * b15,
     0 + a12 * b0 + a13 * b4 + a14 * b8 + a15 * b12,
     0 + a12 * b1 + a13 * b5 + a14 * b9 + a15 * b13,
     0 + a12 * b2 + a13 * b6 + a14 * b10 + a15 * b14,
     0 + a12 * b3 + a13 * b7 + a14 * b11 + a15 * b15] := rfl

/-- Any list of rationals of length 16 is an explicit 16-element list. -/
theorem exists_sixteen (l : List ℚ) (h : l.length = 16) :
    ∃ a0 a1 a2 a3 a4 a5 a6 a7 a8 a9 a10 a11 a12 a13 a14 a15 : ℚ,
      l = [a0, a1, a2, a3, a4, a5, a6, a7, a8, a9, a10, a11, a12, a13, a14, a15] := by
  refine ⟨l.getD 0 0, l.getD 1 0, l.getD 2 0, l.getD 3 0, l.getD 4 0, l.getD 5 0,
    l.getD 6 0, l.getD 7 0, l.getD 8 0, l.getD 9 0, l.getD 10 0, l.getD 11 0,
    l.getD 12 0, l.getD 13 0, l.getD 14 0, l.getD 15 0, ?_⟩
  apply List.ext_getElem
  · rw [h]
    rfl
  · intro i h1 h2
    rw [h] at h1
    interval_cases i <;> exact (List.getD_eq_getElem l 0 (by omega)).symm

/-- The full-map matrix as the spec words it (claim C1):
`Translation(lowerLeftCornerNDC) · Scaling(ndcPerMeter) · Translation(halfWallWidth)`,
where `pixelsPerMeter = min(targetWidthPx/physicalWidth, targetHeightPx/physicalHeight)`,
`ndcPerMeter` is the pixel→NDC image of the maze pixel size taken relative to
the NDC image of the pixel origin, divided by the physical dimensions, and
`lowerLeftCornerPx = fullMapPosition + 0.5*(fullMapSize - mazePixelSize)`. -/
def fullMapMatrixSpec (wallWidth : ℚ) (physicalMazeSize : ℚ × ℚ)
    (fullMapPosition fullMapSize windowSize : ℤ × ℤ) : List ℚ :=
  let pixelsPerMeter :=
    min ((fullMapSize.1 : ℚ) / physicalMazeSize.1) ((fullMapSize.2 : ℚ) / physicalMazeSize.2)
  let mazePixelSize := (pixelsPerMeter * physicalMazeSize.1, pixelsPerMeter * physicalMazeSize.2)
  let ndcPerMeter :=
    (((mapPixelCoordinateToOpenGlCoordinate mazePixelSize windowSize).1 -
        (mapPixelCoordinateToOpenGlCoordinate (0, 0) windowSize).1) / physicalMazeSize.1,
     ((mapPixelCoordinateToOpenGlCoordinate mazePixelSize windowSize).2 -
        (mapPixelCoordinateToOpenGlCoordinate (0, 0) windowSize).2) / physicalMazeSize.2)
  let lowerLeftCornerPx :=
    ((fullMapPosition.1 : ℚ) + 0.5 * ((fullMapSize.1 : ℚ) - mazePixelSize.1),
     (fullMapPosition.2 : ℚ) + 0.5 * ((fullMapSize.2 : ℚ) - mazePixelSize.2))
  let lowerLeftCornerNDC := mapPixelCoordinateToOpenGlCoordinate lowerLeftCornerPx windowSize
  multiply4x4Core
    (translationMatrixQ lowerLeftCornerNDC.1 lowerLeftCornerNDC.2)
    (multiply4x4Core
      (scalingMatrixQ ndcPerMeter.1 ndcPerMeter.2)
      (translationMatrixQ (0.5 * wallWidth) (0.5 * wallWidth)))

/-- C1: for every input with nonzero physical dimensions and window size,
getFullMapTransformationMatrix returns exactly the composition
Translation(lowerLeftCornerNDC) · Scaling(ndcPerMeter) · Translation(halfWallWidth)
with the components stated by the spec (spelled out in `fullMapMatrixSpec`). -/
theorem getFullMap_eq_spec_composition (wallWidth : ℚ) (physicalMazeSize : ℚ × ℚ)
    (fullMapPosition fullMapSize windowSize : ℤ × ℤ)
    (_hpw : physicalMazeSize.1 ≠ 0) (_hph : physicalMazeSize.2 ≠ 0)
    (_hww : windowSize.1 ≠ 0) (_hwh : windowSize.2 ≠ 0) :
    getFullMapTransformationMatrix wallWidth physicalMazeSize
        fullMapPosition fullMapSize windowSize =
      some (fullMapMatrixSpec wallWidth physicalMazeSize
        fullMapPosition fullMapSize windowSize) := rfl

/-- Witness for C1 at wallWidth 0.012, maze 1×1 m, target and window 400×400. -/
theorem getFullMap_eq_spec_composition_witness :
    ((1 : ℚ), (1 : ℚ)).1 ≠ 0 ∧ ((1 : ℚ), (1 : ℚ)).2 ≠ 0 ∧
      ((400 : ℤ), (400 : ℤ)).1 ≠ 0 ∧ ((400 : ℤ), (400 : ℤ)).2 ≠ 0 ∧
      getFullMapTransformationMatrix 0.012 (1, 1) (0, 0) (400, 400) (400, 400) =
        some (fullMapMatrixSpec 0.012 (1, 1) (0, 0) (400, 400) (400, 400)) :=
  ⟨by decide, by decide, by decide, by decide,
    getFullMap_eq_spec_composition 0.012 (1, 1) (0, 0) (400, 400) (400, 400)
      (by decide) (by decide) (by decide) (by decide)⟩

/-- Unfolding of the full-map builder: the assertions pass, and the result
is the three-matrix composition with the concrete component formulas. -/
theorem getFullMap_unfold (wallWidth : ℚ) (physicalMazeSize : ℚ × ℚ)
    (fullMapPosition fullMapSize windowSize : ℤ × ℤ) :
    getFullMapTransformationMatrix wallWidth physicalMazeSize
        fullMapPosition fullMapSize windowSize =
      some (fullMapMatrixSpec wallWidth physicalMazeSize
        fullMapPosition fullMapSize windowSize) := rfl

/-- C2 counterexample: in the spec's full-map scenario (wallWidth 0.012 m,
1×1 m maze, target and window 400×400 px at position (0,0)), the returned
matrix does NOT map physical (1,1) to the target's upper-right corner minus
the half-wall pixel offset 0.5*wallWidth*pixelsPerMeter = 2.4 px: the image
is NDC 1.012 per axis (pixel 402.4), not 0.988 (pixel 397.6). -/
theorem full_map_scenario_upper_right_mismatch :
    (getFullMapTransformationMatrix 0.012 (1, 1) (0, 0) (400, 400) (400, 400)).isSome = true ∧
    applyMatrixToPoint
        ((getFullMapTransformationMatrix 0.012 (1, 1) (0, 0) (400, 400) (400, 400)).getD [])
        (1, 1) ≠
      mapPixelCoordinateToOpenGlCoordinate
        (400 - 0.5 * 0.012 * 400, 400 - 0.5 * 0.012 * 400) (400, 400) := by
  rw [getFullMap_unfold]
  simp only [fullMapMatrixSpec, mapPixelCoordinateToOpenGlCoordinate,
    translationMatrixQ, scalingMatrixQ, multiply4x4Core_explicit,
    Option.isSome_some, Option.getD_some, applyMatrixToPoint_explicit,
    min_self, Prod.mk.injEq, ne_eq]
  norm_num

/-- C2 amended: in that scenario the matrix maps physical (0,0) to the pixel
at offset 0.5*wallWidth*pixelsPerMeter = 2.4 px from the target's lower-left
corner on both axes, and maps physical (1,1) to the target's upper-right
corner PLUS that same offset on both axes (the maze's far outer corner, at
physical 1 - 0.5*wallWidth, is what lands exactly on the target's
upper-right corner). -/
theorem full_map_scenario_concrete :
    (getFullMapTransformationMatrix 0.012 (1, 1) (0, 0) (400, 400) (400, 400)).isSome = true ∧
    applyMatrixToPoint
        ((getFullMapTransformationMatrix 0.012 (1, 1) (0, 0) (400, 400) (400, 400)).getD [])
        (0, 0) =
      mapPixelCoordinateToOpenGlCoordinate
        (0 + 0.5 * 0.012 * 400, 0 + 0.5 * 0.012 * 400) (400, 400) ∧
    applyMatrixToPoint
        ((getFullMapTransformationMatrix 0.012 (1, 1) (0, 0) (400, 400) (400, 400)).getD [])
        (1, 1) =
      mapPixelCoordinateToOpenGlCoordinate
        (400 + 0.5 * 0.012 * 400, 400 + 0.5 * 0.012 * 400) (400, 400) := by
  rw [getFullMap_unfold]
  simp only [fullMapMatrixSpec, mapPixelCoordinateToOpenGlCoordinate,
    translationMatrixQ, scalingMatrixQ, multiply4x4Core_explicit,
    Option.isSome_some, Option.getD_some, applyMatrixToPoint_explicit,
    min_self, Prod.mk.injEq]
  norm_num

/-- C5: multiply4x4Matrices is associative on 16-element matrices (through
the Option returned by the size assertions), and the 4×4 identity matrix is
a left and a right unit. -/
theorem multiply4x4_assoc_and_identity (A B C : List ℚ)
    (hA : A.length = 16) (hB : B.length = 16) (hC : C.length = 16) :
    ((multiply4x4Matrices A B).bind (fun m => multiply4x4Matrices m C) =
      (multiply4x4Matrices B C).bind (fun m => multiply4x4Matrices A m)) ∧
    multiply4x4Matrices identity4 A = some A ∧
    multiply4x4Matrices A identity4 = some A := by
  obtain ⟨a0, a1, a2, a3, a4, a5, a6, a7, a8, a9, a10, a11, a12, a13, a14, a15, rfl⟩ :=
    exists_sixteen A hA
  obtain ⟨b0, b1, b2, b3, b4, b5, b6, b7, b8, b9, b10, b11, b12, b13, b14, b15, rfl⟩ :=
    exists_sixteen B hB
  obtain ⟨c0, c1, c2, c3, c4, c5, c6, c7, c8, c9, c10, c11, c12, c13, c14, c15, rfl⟩ :=
    exists_sixteen C hC
  refine ⟨?_, ?_, ?_⟩
  · simp only [multiply4x4Matrices_explicit, multiply4x4Core_explicit, Option.some_bind,
      Option.some.injEq, List.cons.injEq, and_true]
    exact ⟨by ring, by ring, by ring, by ring, by ring, by ring, by ring, by ring,
      by ring, by ring, by ring, by ring, by ring, by ring, by ring, by ring⟩
  · rw [show identity4 = ([1,0,0,0,0,1,0,0,0,0,1,0,0,0,0,1] : List ℚ) from rfl]
    simp only [multiply4x4Matrices_explicit, multiply4x4Core_explicit,
      Option.some.injEq, List.cons.injEq, and_true]
    exact ⟨by ring, by ring, by ring, by ring, by ring, by ring, by ring, by ring,
      by ring, by ring, by ring, by ring, by ring, by ring, by ring, by ring⟩
  · rw [show identity4 = ([1,0,0,0,0,1,0,0,0,0,1,0,0,0,0,1] : List ℚ) from rfl]
    simp only [multiply4x4Matrices_explicit, multiply4x4Core_explicit,
      Option.some.injEq, List.cons.injEq, and_true]
    exact ⟨by ring, by ring, by ring, by ring, by ring, by ring, by ring, by ring,
      by ring, by ring, by ring, by ring, by ring, by ring, by ring, by ring⟩

/-- Witness for C5 at three concrete 16-element matrices. -/
theorem multiply4x4_assoc_and_identity_witness :
    ([1,2,3,4,5,6,7,8,9,10,11,12,13,14,15,16] : List ℚ).length = 16 ∧
    ([2,0,1,0,0,3,0,1,1,0,4,0,0,1,0,5] : List ℚ).length = 16 ∧
    ([1,1,0,0,0,1,1,0,0,0,1,1,1,0,0,1] : List ℚ).length = 16 ∧
    (((multiply4x4Matrices [1,2,3,4,5,6,7,8,9,10,11,12,13,14,15,16]
          [2,0,1,0,0,3,0,1,1,0,4,0,0,1,0,5]).bind
        (fun m => multiply4x4Matrices m [1,1,0,0,0,1,1,0,0,0,1,1,1,0,0,1]) =
      (multiply4x4Matrices [2,0,1,0,0,3,0,1,1,0,4,0,0,1,0,5]
          [1,1,0,0,0,1,1,0,0,0,1,1,1,0,0,1]).bind
        (fun m => multiply4x4Matrices [1,2,3,4,5,6,7,8,9,10,11,12,13,14,15,16] m)) ∧
    multiply4x4Matrices identity4 [1,2,3,4,5,6,7,8,9,10,11,12,13,14,15,16] =
      some [1,2,3,4,5,6,7,8,9,10,11,12,13,14,15,16] ∧
    multiply4x4Matrices [1,2,3,4,5,6,7,8,9,10,11,12,13,14,15,16] identity4 =
      some [1,2,3,4,5,6,7,8,9,10,11,12,13,14,15,16]) :=
  ⟨by decide, by decide, by decide,
    multiply4x4_assoc_and_identity
      [1,2,3,4,5,6,7,8,9,10,11,12,13,14,15,16]
      [2,0,1,0,0,3,0,1,1,0,4,0,0,1,0,5]
      [1,1,0,0,0,1,1,0,0,0,1,1,1,0,0,1]
      (by decide) (by decide) (by decide)⟩

theorem length_16_literal (x0 x1 x2 x3 x4 x5 x6 x7 x8 x9 x10 x11 x12 x13 x14 x15 : ℚ) :
    ([x0, x1, x2, x3, x4, x5, x6, x7, x8, x9, x10, x11, x12, x13, x14, x15] : List ℚ).length
      = 16 := rfl

/-- C3: zoomed map, rotation disabled: when the current mouse position equals
the initial one (zero dynamic translation), the returned matrix maps the
agent's physical position to the NDC image of the pixel
`zoomedMapPosition + 0.5 * zoomedMapSize`, the center of the target region. -/
theorem zoomed_map_centers_agent
    (physicalMazeSize : ℚ × ℚ) (zoomedMapPosition zoomedMapSize windowSize : ℤ × ℤ)
    (screenPixelsPerMeter zoomedMapScale : ℚ)
    (initialMouseTranslation currentMouseTranslation : ℚ × ℚ)
    (cosTheta sinTheta : ℚ)
    (hpw : physicalMazeSize.1 ≠ 0) (hph : physicalMazeSize.2 ≠ 0)
    (hww : windowSize.1 ≠ 0) (hwh : windowSize.2 ≠ 0)
    (hsame : currentMouseTranslation = initialMouseTranslation) :
    ∃ m, getZoomedMapTransformationMatrix physicalMazeSize zoomedMapPosition zoomedMapSize
          windowSize screenPixelsPerMeter zoomedMapScale false
          initialMouseTranslation currentMouseTranslation cosTheta sinTheta = some m ∧
      applyMatrixToPoint m currentMouseTranslation =
        mapPixelCoordinateToOpenGlCoordinate
          ((zoomedMapPosition.1 : ℚ) + 0.5 * (zoomedMapSize.1 : ℚ),
           (zoomedMapPosition.2 : ℚ) + 0.5 * (zoomedMapSize.2 : ℚ)) windowSize := by
  subst hsame
  rcases physicalMazeSize with ⟨pw, ph⟩
  rcases zoomedMapPosition with ⟨zx, zy⟩
  rcases zoomedMapSize with ⟨zw, zh⟩
  rcases windowSize with ⟨wx, wy⟩
  rcases currentMouseTranslation with ⟨ix, iy⟩
  simp only at hpw hph hww hwh
  refine ⟨_, rfl, ?_⟩
  simp only [getZoomedMapTransformationMatrix, multiply4x4Matrices_eq_some,
    length_16_literal, multiply4x4Core_length, Option.some_bind, Bool.false_eq_true,
    if_false, Option.pure_def, multiply4x4Core_explicit, applyMatrixToPoint_explicit,
    mapPixelCoordinateToOpenGlCoordinate, Prod.mk.injEq]
  have hwx : (wx : ℚ) ≠ 0 := Int.cast_ne_zero.mpr hww
  have hwy : (wy : ℚ) ≠ 0 := Int.cast_ne_zero.mpr hwh
  constructor
  · field_simp
    ring
  · field_simp
    ring

/-- Witness for C3: maze 1×1 m, target 100×100 px at (10, 20), window
400×300 px, pixels-per-meter 200, scale 0.85, mouse at (0.5, 0.5). -/
theorem zoomed_map_centers_agent_witness :
    ((1 : ℚ), (1 : ℚ)).1 ≠ 0 ∧ ((1 : ℚ), (1 : ℚ)).2 ≠ 0 ∧
    ((400 : ℤ), (300 : ℤ)).1 ≠ 0 ∧ ((400 : ℤ), (300 : ℤ)).2 ≠ 0 ∧
    ((0.5 : ℚ), (0.5 : ℚ)) = ((0.5 : ℚ), (0.5 : ℚ)) ∧
    (∃ m, getZoomedMapTransformationMatrix (1, 1) (10, 20) (100, 100)
          (400, 300) 200 0.85 false (0.5, 0.5) (0.5, 0.5) 1 0 = some m ∧
      applyMatrixToPoint m (0.5, 0.5) =
        mapPixelCoordinateToOpenGlCoordinate
          (((10 : ℤ) : ℚ) + 0.5 * ((100 : ℤ) : ℚ),
           ((20 : ℤ) : ℚ) + 0.5 * ((100 : ℤ) : ℚ)) (400, 300)) :=
  ⟨by decide, by decide, by decide, by decide, rfl,
    zoomed_map_centers_agent (1, 1) (10, 20) (100, 100) (400, 300) 200 0.85
      (0.5, 0.5) (0.5, 0.5) 1 0
      (by decide) (by decide) (by decide) (by decide) rfl⟩

/-- With nonzero scale factors, the rotation sandwich built for theta = 0
(cosine 1, sine 0) collapses: translate-to-origin · scale · rotate ·
inverse-scale · inverse-translate applied to any 16-element matrix returns
that matrix. -/
theorem rotation_sandwich_collapse (sx sy a b : ℚ) (hsx : sx ≠ 0) (hsy : sy ≠ 0)
    (M : List ℚ) (hM : M.length = 16) :
    multiply4x4Core [1, 0, 0, a, 0, 1, 0, b, 0, 0, 1, 0, 0, 0, 0, 1]
      (multiply4x4Core [sx, 0, 0, 0, 0, sy, 0, 0, 0, 0, 1, 0, 0, 0, 0, 1]
        (multiply4x4Core [1, 0, 0, 0, -0, 1, 0, 0, 0, 0, 1, 0, 0, 0, 0, 1]
          (multiply4x4Core [1 / sx, 0, 0, 0, 0, 1 / sy, 0, 0, 0, 0, 1, 0, 0, 0, 0, 1]
            (multiply4x4Core [1, 0, 0, -a, 0, 1, 0, -b, 0, 0, 1, 0, 0, 0, 0, 1] M)))) =
      M := by
  obtain ⟨m0, m1, m2, m3, m4, m5, m6, m7, m8, m9, m10, m11, m12, m13, m14, m15, rfl⟩ :=
    exists_sixteen M hM
  simp only [multiply4x4Core_explicit, List.cons.injEq, and_true]
  refine ⟨?_, ?_, ?_, ?_, ?_, ?_, ?_, ?_, ?_, ?_, ?_, ?_, ?_, ?_, ?_, ?_⟩ <;>
    field_simp

/-- C4: zoomed map with rotation enabled at a current heading of 90°:
theta normalizes to 0, the rotation matrix at cosine 1 / sine 0 is the
identity, and the six-matrix rotation sandwich collapses so that the result
equals the rotation-disabled camera matrix for the same inputs. The nonzero
hypotheses are the spec's validity envelope (division by zero physical or
window dimensions is undefined, and a zero pixels-per-meter scale degenerates
the inverse scaling). -/
theorem zoomed_map_heading_90_collapses
    (physicalMazeSize : ℚ × ℚ) (zoomedMapPosition zoomedMapSize windowSize : ℤ × ℤ)
    (screenPixelsPerMeter zoomedMapScale : ℚ)
    (initialMouseTranslation currentMouseTranslation : ℚ × ℚ)
    (cosTheta sinTheta : ℚ)
    (hpw : physicalMazeSize.1 ≠ 0) (hph : physicalMazeSize.2 ≠ 0)
    (hww : windowSize.1 ≠ 0) (hwh : windowSize.2 ≠ 0)
    (hppm : screenPixelsPerMeter * zoomedMapScale ≠ 0) :
    zoomedMapThetaDegrees 90 = 0 ∧
    Real.cos (((zoomedMapThetaDegrees 90 : ℚ) : ℝ) * Real.pi / 180) = 1 ∧
    Real.sin (((zoomedMapThetaDegrees 90 : ℚ) : ℝ) * Real.pi / 180) = 0 ∧
    rotationMatrixQ 1 0 = identity4 ∧
    getZoomedMapTransformationMatrix physicalMazeSize zoomedMapPosition zoomedMapSize
        windowSize screenPixelsPerMeter zoomedMapScale true
        initialMouseTranslation currentMouseTranslation 1 0 =
      getZoomedMapTransformationMatrix physicalMazeSize zoomedMapPosition zoomedMapSize
        windowSize screenPixelsPerMeter zoomedMapScale false
        initialMouseTranslation currentMouseTranslation cosTheta sinTheta := by
  have htheta : zoomedMapThetaDegrees 90 = 0 := by
    norm_num [zoomedMapThetaDegrees]
  refine ⟨htheta, ?_, ?_, ?_, ?_⟩
  · rw [htheta]
    push_cast
    norm_num
  · rw [htheta]
    push_cast
    norm_num
  · norm_num [rotationMatrixQ, identity4]
  · rcases physicalMazeSize with ⟨pw, ph⟩
    rcases zoomedMapPosition with ⟨zx, zy⟩
    rcases zoomedMapSize with ⟨zw, zh⟩
    rcases windowSize with ⟨wx, wy⟩
    rcases initialMouseTranslation with ⟨ix, iy⟩
    rcases currentMouseTranslation with ⟨cx, cy⟩
    simp only at hpw hph hww hwh
    have hwx : (wx : ℚ) ≠ 0 := Int.cast_ne_zero.mpr hww
    have hwy : (wy : ℚ) ≠ 0 := Int.cast_ne_zero.mpr hwh
    simp only [getZoomedMapTransformationMatrix, multiply4x4Matrices_eq_some,
      length_16_literal, multiply4x4Core_length, Option.bind_eq_bind', Option.some_bind,
      eq_self_iff_true, if_true, Bool.false_eq_true, if_false, Option.pure_def]
    rw [rotation_sandwich_collapse]
    · exact ne_of_eq_of_ne
        (by simp only [mapPixelCoordinateToOpenGlCoordinate]; field_simp; try ring)
        (div_ne_zero (mul_ne_zero two_ne_zero hppm) hwx)
    · exact ne_of_eq_of_ne
        (by simp only [mapPixelCoordinateToOpenGlCoordinate]; field_simp; try ring)
        (div_ne_zero (mul_ne_zero two_ne_zero hppm) hwy)
    · exact multiply4x4Core_length _ _

/-- Witness for C4: maze 1×1 m, target 100×100 px at (10, 20), window
400×300 px, pixels-per-meter 200, scale 1, arbitrary mouse poses and
rotation-disabled trig values. -/
theorem zoomed_map_heading_90_collapses_witness :
    ((1 : ℚ), (1 : ℚ)).1 ≠ 0 ∧ ((1 : ℚ), (1 : ℚ)).2 ≠ 0 ∧
    ((400 : ℤ), (300 : ℤ)).1 ≠ 0 ∧ ((400 : ℤ), (300 : ℤ)).2 ≠ 0 ∧
    (200 : ℚ) * 1 ≠ 0 ∧
    (zoomedMapThetaDegrees 90 = 0 ∧
     Real.cos (((zoomedMapThetaDegrees 90 : ℚ) : ℝ) * Real.pi / 180) = 1 ∧
     Real.sin (((zoomedMapThetaDegrees 90 : ℚ) : ℝ) * Real.pi / 180) = 0 ∧
     rotationMatrixQ 1 0 = identity4 ∧
     getZoomedMapTransformationMatrix (1, 1) (10, 20) (100, 100)
         (400, 300) 200 1 true (0.3, 0.4) (0.6, 0.8) 1 0 =
       getZoomedMapTransformationMatrix (1, 1) (10, 20) (100, 100)
         (400, 300) 200 1 false (0.3, 0.4) (0.6, 0.8) 0.5 0.25) :=
  ⟨by decide, by decide, by decide, by decide, by simp,
    zoomed_map_heading_90_collapses (1, 1) (10, 20) (100, 100) (400, 300) 200 1
      (0.3, 0.4) (0.6, 0.8) 0.5 0.25
      (by decide) (by decide) (by decide) (by decide) (by simp)⟩

/-- C6: multiply4x4Matrices hits its fatal size assertion (returns `none`)
exactly when an operand's length differs from 16, and on 16-element operands
it returns a matrix that again has exactly 16 elements. -/
theorem multiply4x4_assertion_behavior (left right : List ℚ) :
    (multiply4x4Matrices left right).isSome = (left.length == 16 && right.length == 16) ∧
    (multiply4x4Matrices left right).elim True (fun result => result.length = 16) := by
  unfold multiply4x4Matrices
  by_cases h : left.length = 16 ∧ right.length = 16
  · rw [if_pos h]
    simp [h.1, h.2, multiply4x4Core_length]
  · rw [if_neg h]
    rcases Decidable.not_and_iff_or_not.mp h with h' | h' <;>
      simp [Option.elim, h']

/-- Witness for C6 at a 2-element and a 16-element operand. -/
theorem multiply4x4_assertion_behavior_witness :
    ((multiply4x4Matrices [1, 2] identity4).isSome =
        (([1, 2] : List ℚ).length == 16 && identity4.length == 16) ∧
      (multiply4x4Matrices [1, 2] identity4).elim True
        (fun result => result.length = 16)) ∧
    ((multiply4x4Matrices identity4 identity4).isSome =
        (identity4.length == 16 && identity4.length == 16) ∧
      (multiply4x4Matrices identity4 identity4).elim True
        (fun result => result.length = 16)) :=
  ⟨multiply4x4_assertion_behavior [1, 2] identity4,
    multiply4x4_assertion_behavior identity4 identity4⟩

end TransformationMatrix

end Mms

namespace Sim

namespace MazeInterface

/-- Modelled from the spec: the Direction enumeration is declared outside the
source files; §3 describes "a small fixed enumeration (e.g.
North/East/South/West)". -/
inductive Direction where
  | north
  | east
  | south
  | west
deriving DecidableEq, Inhabited

/-- Modelled from the spec: BasicTile is declared outside the source files;
§3 describes a Tile as holding "a mapping from Direction → boolean wall
present". -/
structure BasicTile where
  walls : Direction → Bool

instance : Inhabited BasicTile := ⟨⟨fun _ => false⟩⟩

instance : DecidableEq BasicTile := fun a b =>
  decidable_of_iff
    (a.walls .north = b.walls .north ∧ a.walls .east = b.walls .east ∧
      a.walls .south = b.walls .south ∧ a.walls .west = b.walls .west)
    (by
      constructor
      · rintro ⟨hn, he, hs, hw⟩
        cases a
        cases b
        simp only [BasicTile.mk.injEq]
        funext d
        cases d <;> assumption
      · rintro rfl
        exact ⟨rfl, rfl, rfl, rfl⟩)

/-- The externally owned grid: a vector of columns of tiles, indexed [x][y]. -/
abbrev BasicMaze := List (List BasicTile)

/-- Modelled from the spec: the CHAR_TO_DIRECTION table is declared outside
the source files; §3 says each Direction is "represented externally by a
single character code". The conventional n/e/s/w codes are used; the claims
below depend only on membership versus non-membership in the table. -/
def CHAR_TO_DIRECTION (c : Char) : Option Direction :=
  if c = 'n' then some .north
  else if c = 'e' then some .east
  else if c = 's' then some .south
  else if c = 'w' then some .west
  else none

/-- Embeds MazeInterface::getWidth (MazeInterface.cpp, lines 32-34):
`m_basicMaze->size()` as an int. -/
def getWidth (m : BasicMaze) : Int := m.length

/-- Embeds MazeInterface::getHeight (lines 36-38):
`size() > 0 ? m_basicMaze->at(0).size() : 0`. -/
def getHeight (m : BasicMaze) : Int :=
  if 0 < m.length then ((m.getD 0 []).length : Int) else 0

/-- The two diagnostics setWall can print via SimUtilities::print, modelled
structurally: the out-of-bounds message quotes getWidth, getHeight and the
offending coordinate (lines 13-16), the unknown-direction message quotes the
character (lines 21-22). -/
inductive Diagnostic where
  | outOfBoundsCoordinate (width height x y : Int)
  | unknownDirectionCode (direction : Char)
deriving DecidableEq

/-- Result of a setWall call: `ok` carries the (possibly updated) grid and
the diagnostic printed, if any; `outOfRangeError` models `std::vector::at`
throwing std::out_of_range on the unchecked write path of line 25. -/
inductive SetWallResult where
  | ok (maze : BasicMaze) (diagnostic : Option Diagnostic)
  | outOfRangeError
deriving DecidableEq

/-- Embeds MazeInterface::setWall (lines 10-26): bounds check first (line 12),
then the CHAR_TO_DIRECTION membership check (line 20), then
`m_basicMaze->at(x).at(y).walls.at(CHAR_TO_DIRECTION.at(direction)) =
wallExists` (line 25). The map lookup `CHAR_TO_DIRECTION.at(direction)` runs
after the membership guard, so its key is always present; it is modelled
with `getD`. -/
def setWall (m : BasicMaze) (x y : Int) (direction : Char) (wallExists : Bool) :
    SetWallResult :=
  if x < 0 ∨ getWidth m ≤ x ∨ y < 0 ∨ getHeight m ≤ y then
    .ok m (some (.outOfBoundsCoordinate (getWidth m) (getHeight m) x y))
  else if (CHAR_TO_DIRECTION direction).isNone then
    .ok m (some (.unknownDirectionCode direction))
  else
    match m[x.toNat]? with
    | none => .outOfRangeError
    | some column =>
      match column[y.toNat]? with
      | none => .outOfRangeError
      | some tile =>
        .ok
          (m.set x.toNat (column.set y.toNat
            { walls := Function.update tile.walls
                ((CHAR_TO_DIRECTION direction).getD default) wallExists }))
          none

/-- Read one wall flag of tile [i][j] (out-of-range reads see the default
tile; both compared sides use the same default in the frame theorems). -/
def tileWalls (m : BasicMaze) (i j : ℕ) (d : Direction) : Bool :=
  ((m.getD i []).getD j default).walls d

/-- The grid shape the spec's data model prescribes (§3: an ordered 2-D
array): every column has the length of the first one. -/
def rectangular (m : BasicMaze) : Prop :=
  ∀ col ∈ m, col.length = (m.getD 0 []).length

instance (m : BasicMaze) : Decidable (rectangular m) := by
  unfold rectangular
  infer_instance

theorem walls_mk (f : Direction → Bool) : (BasicTile.mk f).walls = f := rfl

theorem toNat_lt_length (m : BasicMaze) (x : Int) (hx : 0 ≤ x) (hxw : x < getWidth m) :
    x.toNat < m.length := by
  unfold getWidth at hxw
  omega

theorem col_index_lt (m : BasicMaze) (x y : Int) (hrect : rectangular m)
    (hxlen : x.toNat < m.length) (hy : 0 ≤ y) (hyh : y < getHeight m) :
    y.toNat < m[x.toNat].length := by
  have hcollen : m[x.toNat].length = (m.getD 0 []).length :=
    hrect m[x.toNat] (List.getElem_mem hxlen)
  unfold getHeight at hyh
  rw [if_pos (by omega)] at hyh
  omega

/-- C7: for every (x, y) with x outside [0, width) or y outside [0, height)
(including negatives), setWall leaves every tile unchanged, reports an
OutOfBoundsCoordinate diagnostic carrying the maze's actual width and height
and the offending coordinate, and returns without any exception. -/
theorem setWall_out_of_bounds (m : BasicMaze) (x y : Int) (direction : Char)
    (wallExists : Bool)
    (h : x < 0 ∨ getWidth m ≤ x ∨ y < 0 ∨ getHeight m ≤ y) :
    setWall m x y direction wallExists =
      .ok m (some (.outOfBoundsCoordinate (getWidth m) (getHeight m) x y)) := by
  unfold setWall
  rw [if_pos h]

/-- Witness for C7: a 1×1 grid with x = -1. -/
theorem setWall_out_of_bounds_witness :
    ((-1 : Int) < 0 ∨ getWidth [[(default : BasicTile)]] ≤ -1 ∨ (0 : Int) < 0 ∨
        getHeight [[(default : BasicTile)]] ≤ 0) ∧
    setWall [[(default : BasicTile)]] (-1) 0 'n' true =
      .ok [[(default : BasicTile)]]
        (some (.outOfBoundsCoordinate (getWidth [[(default : BasicTile)]])
          (getHeight [[(default : BasicTile)]]) (-1) 0)) :=
  ⟨by decide, setWall_out_of_bounds [[(default : BasicTile)]] (-1) 0 'n' true (by decide)⟩

/-- C8 counterexample: for the unknown direction character '?' and the
out-of-bounds coordinate (-1, 0), setWall reports OutOfBoundsCoordinate, not
UnknownDirectionCode: the bounds check runs before the direction-code check,
so the claim's "for every (x, y) argument" fails. -/
theorem setWall_unknown_direction_out_of_bounds_mismatch :
    setWall [[(default : BasicTile)]] (-1) 0 '?' true ≠
      .ok [[(default : BasicTile)]] (some (.unknownDirectionCode '?')) := by
  decide

/-- C8 amended: for every direction character absent from the code table and
every in-bounds (x, y), setWall leaves the grid unchanged and reports an
UnknownDirectionCode diagnostic, distinct from the out-of-bounds one. -/
theorem setWall_unknown_direction (m : BasicMaze) (x y : Int) (direction : Char)
    (wallExists : Bool)
    (hdir : CHAR_TO_DIRECTION direction = none)
    (hx : 0 ≤ x) (hxw : x < getWidth m) (hy : 0 ≤ y) (hyh : y < getHeight m) :
    setWall m x y direction wallExists =
      .ok m (some (.unknownDirectionCode direction)) := by
  unfold setWall
  rw [if_neg (by push_neg; exact ⟨hx, hxw, hy, hyh⟩), if_pos (by simp [hdir])]

/-- Witness for C8's amended theorem: a 1×1 grid, in-bounds (0, 0), '?'. -/
theorem setWall_unknown_direction_witness :
    CHAR_TO_DIRECTION '?' = none ∧
    (0 : Int) ≤ 0 ∧ (0 : Int) < getWidth [[(default : BasicTile)]] ∧
    (0 : Int) ≤ 0 ∧ (0 : Int) < getHeight [[(default : BasicTile)]] ∧
    setWall [[(default : BasicTile)]] 0 0 '?' false =
      .ok [[(default : BasicTile)]] (some (.unknownDirectionCode '?')) :=
  ⟨by decide, by decide, by decide, by decide, by decide,
    setWall_unknown_direction [[(default : BasicTile)]] 0 0 '?' false
      (by decide) (by decide) (by decide) (by decide) (by decide)⟩

/-- C9: for every in-bounds (x, y) on a rectangular grid and every direction
character in the table, setWall succeeds with no diagnostic and writes
exactly one flag: the addressed direction of tile [x][y] becomes wallExists
(so an immediate re-read returns the new value), and every other tile and
every other direction flag of that tile is unchanged. -/
theorem setWall_writes_exactly_one_flag (m : BasicMaze) (x y : Int) (direction : Char)
    (wallExists : Bool) (d : Direction)
    (hrect : rectangular m)
    (hx : 0 ≤ x) (hxw : x < getWidth m) (hy : 0 ≤ y) (hyh : y < getHeight m)
    (hdir : CHAR_TO_DIRECTION direction = some d) :
    ∃ m', setWall m x y direction wallExists = .ok m' none ∧
      m'.length = m.length ∧
      (∀ i j : ℕ, ∀ d' : Direction, tileWalls m' i j d' =
        if i = x.toNat ∧ j = y.toNat ∧ d' = d then wallExists
        else tileWalls m i j d') := by
  have hxlen : x.toNat < m.length := toNat_lt_length m x hx hxw
  have hylen : y.toNat < m[x.toNat].length := col_index_lt m x y hrect hxlen hy hyh
  have hcol : m[x.toNat]? = some m[x.toNat] := List.getElem?_eq_getElem hxlen
  have htile : m[x.toNat][y.toNat]? = some (m[x.toNat][y.toNat]) :=
    List.getElem?_eq_getElem hylen
  have hddef : (CHAR_TO_DIRECTION direction).getD default = d := by
    rw [hdir]
    rfl
  unfold setWall
  rw [if_neg (by push_neg; exact ⟨hx, hxw, hy, hyh⟩), if_neg (by simp [hdir])]
  simp only [hcol, htile, hddef]
  refine ⟨_, rfl, by simp, ?_⟩
  intro i j d'
  unfold tileWalls
  by_cases hi : i = x.toNat
  · subst hi
    rw [List.getD_eq_getElem?_getD (m.set x.toNat _) x.toNat [],
      List.getElem?_set_self hxlen, Option.getD_some]
    by_cases hj : j = y.toNat
    · subst hj
      rw [List.getD_eq_getElem?_getD _ y.toNat default,
        List.getElem?_set_self hylen, Option.getD_some, walls_mk]
      by_cases hd : d' = d
      · subst hd
        rw [Function.update_same, if_pos ⟨rfl, rfl, rfl⟩]
      · rw [Function.update_noteq hd, if_neg (by tauto),
          List.getD_eq_getElem m [] hxlen, List.getD_eq_getElem _ default hylen]
    · rw [List.getD_eq_getElem?_getD _ j default,
        List.getElem?_set_ne (Ne.symm hj), ← List.getD_eq_getElem?_getD,
        if_neg (by tauto), List.getD_eq_getElem m [] hxlen]
  · rw [List.getD_eq_getElem?_getD (m.set _ _) i [],
      List.getElem?_set_ne (Ne.symm hi), ← List.getD_eq_getElem?_getD,
      if_neg (by tauto)]

/-- Witness for C9: a rectangular 2×2 grid, write the north wall of tile
(0, 1). -/
theorem setWall_writes_exactly_one_flag_witness :
    rectangular [[(default : BasicTile), default], [default, default]] ∧
    (0 : Int) ≤ 0 ∧
    (0 : Int) < getWidth [[(default : BasicTile), default], [default, default]] ∧
    (0 : Int) ≤ 1 ∧
    (1 : Int) < getHeight [[(default : BasicTile), default], [default, default]] ∧
    CHAR_TO_DIRECTION 'n' = some .north ∧
    (∃ m', setWall [[(default : BasicTile), default], [default, default]] 0 1 'n' true =
        .ok m' none ∧
      m'.length = ([[(default : BasicTile), default], [default, default]] : BasicMaze).length ∧
      (∀ i j : ℕ, ∀ d' : Direction, tileWalls m' i j d' =
        if i = (0 : Int).toNat ∧ j = (1 : Int).toNat ∧ d' = .north then true
        else tileWalls [[(default : BasicTile), default], [default, default]] i j d')) :=
  ⟨by decide, by decide, by decide, by decide, by decide, by decide,
    setWall_writes_exactly_one_flag [[(default : BasicTile), default], [default, default]]
      0 1 'n' true .north (by decide) (by decide) (by decide) (by decide) (by decide)
      (by decide)⟩

/-- C10: setWall compares y only against the first column's length (that is
what getHeight returns), so on a rectangular grid — every column as long as
the first — a call that passes both validation checks indexes only in range:
the checked-access error outcome is impossible for every input. -/
theorem setWall_never_out_of_range (m : BasicMaze) (x y : Int) (direction : Char)
    (wallExists : Bool) (hrect : rectangular m) :
    setWall m x y direction wallExists ≠ .outOfRangeError := by
  unfold setWall
  by_cases hb : x < 0 ∨ getWidth m ≤ x ∨ y < 0 ∨ getHeight m ≤ y
  · rw [if_pos hb]
    simp
  · rw [if_neg hb]
    push_neg at hb
    obtain ⟨hx, hxw, hy, hyh⟩ := hb
    by_cases hdir : (CHAR_TO_DIRECTION direction).isNone
    · rw [if_pos hdir]
      simp
    · rw [if_neg hdir]
      have hxlen : x.toNat < m.length := toNat_lt_length m x hx hxw
      have hylen : y.toNat < m[x.toNat].length := col_index_lt m x y hrect hxlen hy hyh
      have hcol : m[x.toNat]? = some m[x.toNat] := List.getElem?_eq_getElem hxlen
      have htile : m[x.toNat][y.toNat]? = some (m[x.toNat][y.toNat]) :=
        List.getElem?_eq_getElem hylen
      simp only [hcol, htile]
      simp

/-- Witness for C10: the rectangular 2×2 grid with an arbitrary call. -/
theorem setWall_never_out_of_range_witness :
    rectangular [[(default : BasicTile), default], [default, default]] ∧
    setWall [[(default : BasicTile), default], [default, default]] 1 0 'e' false ≠
      .outOfRangeError :=
  ⟨by decide,
    setWall_never_out_of_range [[(default : BasicTile), default], [default, default]]
      1 0 'e' false (by decide)⟩

end MazeInterface

end Sim
